import Mathlib

/-!
Shallow embedding of `src/chai/managed_ptr.hpp` (namespace `chai`).

The C++ file defines a reference-counted owning pointer `managed_ptr<T, ExecStrategy>`
with three execution strategies (`Host`, `Managed`, `Device`), factory functions
(`make_managed`, `make_managed_from_factory`), pointer casts and comparison operators.

Modelling choices:
* Raw addresses are natural numbers; a possibly-null `T*` is an `Option Addr`
  (`none` = `nullptr`).
* Heap-allocated state that is shared between copies of a pointer — the
  `std::size_t` reference counter, the host and device objects, and the
  type-erased `std::tuple` argument payload — lives in an explicit `Heap`.
* `std::size_t` arithmetic is modelled as `Nat` arithmetic modulo `2 ^ 64`.
* Undefined behaviour (dereferencing a dangling counter, deleting an object
  twice, calling or branching on an indeterminate function pointer) is made
  explicit: operations return `Except Err _` and those situations are errors.
* `delete p` with `p == nullptr` is a no-op, as in C++.
* Side effects that the claims talk about (object deletions, the deferred
  copy/release hooks, kernel launches) are recorded as a list of `Event`s.
* `__host__` / `__device__` compilation contexts (`#ifndef __CUDA_ARCH__`)
  are modelled by an `ExecCtx` parameter on the functions whose bodies differ
  between the two contexts.
-/

namespace chai

/-- `2 ^ 64`: the modulus of `std::size_t` arithmetic. -/
def usizeMod : Nat := 2 ^ 64

/-- A raw (non-null) address. -/
abbrev Addr := Nat

/-- Identifier of a heap-allocated `std::size_t` reference-counter cell. -/
abbrev CtrId := Nat

/-- Undefined behaviour surfaced by the model. -/
inductive Err
  | danglingCounter
  | doubleDeleteHost
  | doubleDeleteDevice
  | indeterminateCallback
  | nullPayload
  | danglingPayload
  | doubleFreePayload
deriving DecidableEq, Repr

/-- Observable side effects of the pointer operations. -/
inductive Event
  /-- `delete m_numReferences` -/
  | freeCounter (i : CtrId)
  /-- the registered release hook: `m_deleter(m_copyArguments)` -/
  | releaseHook (payload : Option Addr)
  /-- `delete m_cpu` on a non-null host object -/
  | deleteHost (a : Addr)
  /-- the device-side `delete devicePtr` performed by `detail::destroy_on_device` -/
  | deviceDelete (g : Addr)
  /-- `cudaDeviceSynchronize()` after a kernel launch -/
  | deviceSync
  /-- the registered copy hook: `m_copier(m_copyArguments)` -/
  | copierCall (payload : Option Addr)
deriving DecidableEq, Repr

/-- `true` exactly on `Event.copierCall _`. -/
def Event.isCopierCall : Event → Bool
  | .copierCall _ => true
  | _ => false

/-- `true` exactly on `Event.deleteHost _`. -/
def Event.isDeleteHost : Event → Bool
  | .deleteHost _ => true
  | _ => false

/-- `true` exactly on `Event.deviceDelete _`. -/
def Event.isDeviceDelete : Event → Bool
  | .deviceDelete _ => true
  | _ => false

/-- The heap shared by all copies of managed pointers: reference-counter
cells, host objects, device objects and `registerArguments` payload tuples.
Each `*Next` field is the next fresh address of its region. -/
structure Heap where
  ctrMem : CtrId → Option Nat
  ctrNext : CtrId
  hostLive : Addr → Bool
  hostNext : Addr
  devLive : Addr → Bool
  devNext : Addr
  payloadLive : Addr → Bool
  payloadNext : Addr

/-- Overwrite one reference-counter cell. -/
def Heap.setCtr (h : Heap) (i : CtrId) (v : Option Nat) : Heap :=
  { h with ctrMem := fun j => if j = i then v else h.ctrMem j }

/-- `new std::size_t{v}`: allocate a fresh counter cell. -/
def Heap.allocCtr (h : Heap) (v : Nat) : CtrId × Heap :=
  (h.ctrNext, { (h.setCtr h.ctrNext (some v)) with ctrNext := h.ctrNext + 1 })

/-- `new T(...)` on the host: allocate a fresh host object. -/
def Heap.allocHostObj (h : Heap) : Addr × Heap :=
  (h.hostNext,
   { h with hostLive := fun a => if a = h.hostNext then true else h.hostLive a,
            hostNext := h.hostNext + 1 })

/-- `new T(...)` on the device (via `detail::make_on_device`). -/
def Heap.allocDevObj (h : Heap) : Addr × Heap :=
  (h.devNext,
   { h with devLive := fun a => if a = h.devNext then true else h.devLive a,
            devNext := h.devNext + 1 })

/-- `new std::tuple<Args...>(args...)`: allocate a payload cell. -/
def Heap.allocPayload (h : Heap) : Addr × Heap :=
  (h.payloadNext,
   { h with payloadLive := fun a => if a = h.payloadNext then true else h.payloadLive a,
            payloadNext := h.payloadNext + 1 })

/-- `delete` a host object; deleting a dead object is undefined behaviour. -/
def Heap.deleteHostObj (h : Heap) (a : Addr) : Except Err Heap :=
  if h.hostLive a then
    .ok { h with hostLive := fun b => if b = a then false else h.hostLive b }
  else
    .error .doubleDeleteHost

/-- Device-side `delete` of a device object. -/
def Heap.deleteDevObj (h : Heap) (a : Addr) : Except Err Heap :=
  if h.devLive a then
    .ok { h with devLive := fun b => if b = a then false else h.devLive b }
  else
    .error .doubleDeleteDevice

/-- `delete static_cast<std::tuple<Args...>*>(copyArguments)`. -/
def Heap.freePayload (h : Heap) (a : Addr) : Except Err Heap :=
  if h.payloadLive a then
    .ok { h with payloadLive := fun b => if b = a then false else h.payloadLive b }
  else
    .error .doubleFreePayload

/-- The execution context a `CHAI_HOST_DEVICE` function is compiled for:
`#ifndef __CUDA_ARCH__` selects `.host`, `#else` selects `.device`. -/
inductive ExecCtx
  | host
  | device
deriving DecidableEq, Repr

namespace Host

/-- `managed_ptr<T, ExecutionStrategy::Host>`: a host address and a pointer to
the shared reference counter, both null by default (default member
initializers `m_cpu = nullptr`, `m_numReferences = nullptr`). -/
structure Ptr where
  m_cpu : Option Addr := none
  m_numReferences : Option CtrId := none
deriving DecidableEq, Repr

/-- The default constructor `managed_ptr()` and the `managed_ptr(std::nullptr_t)`
constructor: both leave every member at its default. -/
def Ptr.null : Ptr := {}

/-- `incrementReferenceCount()`: if the counter pointer is non-null,
`(*m_numReferences)++`. -/
def incrementReferenceCount (p : Ptr) (h : Heap) : Except Err Heap :=
  match p.m_numReferences with
  | none => .ok h
  | some i =>
    match h.ctrMem i with
    | none => .error .danglingCounter
    | some n => .ok (h.setCtr i (some ((n + 1) % usizeMod)))

/-- `decrementReferenceCount()`: if the counter pointer is non-null,
`(*m_numReferences)--`; if the result is `0`, `delete m_numReferences` then
`delete m_cpu`. -/
def decrementReferenceCount (p : Ptr) (h : Heap) : Except Err (Heap × List Event) :=
  match p.m_numReferences with
  | none => .ok (h, [])
  | some i =>
    match h.ctrMem i with
    | none => .error .danglingCounter
    | some n =>
      let n' := (n + (usizeMod - 1)) % usizeMod
      if n' = 0 then
        let h₁ := h.setCtr i none
        match p.m_cpu with
        | none => .ok (h₁, [.freeCounter i])
        | some a => (h₁.deleteHostObj a).map fun h₂ => (h₂, [.freeCounter i, .deleteHost a])
      else
        .ok (h.setCtr i (some n'), [])

/-- `managed_ptr(U* hostPtr)`: take ownership of the raw pointer and allocate
a fresh counter initialized to `1` (`new std::size_t{1}`). The
`static_assert` on `U` is type-level only. -/
def ctorFromPtr (hostPtr : Option Addr) (h : Heap) : Ptr × Heap :=
  let (i, h') := h.allocCtr 1
  ({ m_cpu := hostPtr, m_numReferences := some i }, h')

/-- The copy constructor `managed_ptr(const managed_ptr&)` and the converting
constructor `managed_ptr(const managed_ptr<U>&)`: copy both members, then
`incrementReferenceCount()` (the converting version adds only a type-level
`static_assert`). -/
def copyCtor (other : Ptr) (h : Heap) : Except Err (Ptr × Heap) :=
  (incrementReferenceCount other h).map fun h' => (other, h')

/-- The aliasing constructor `managed_ptr(const managed_ptr<U>& other, T* hostPtr)`:
hold `hostPtr`, share `other`'s counter, then `incrementReferenceCount()`. -/
def aliasingCtor (other : Ptr) (hostPtr : Option Addr) (h : Heap) :
    Except Err (Ptr × Heap) :=
  let p : Ptr := { m_cpu := hostPtr, m_numReferences := other.m_numReferences }
  (incrementReferenceCount p h).map fun h' => (p, h')

/-- The destructor `~managed_ptr()`: `decrementReferenceCount()`. -/
def dtor (p : Ptr) (h : Heap) : Except Err (Heap × List Event) :=
  decrementReferenceCount p h

/-- The copy-assignment operator (taken with `this != &other`; self-assignment
is a no-op) and the converting assignment operator: decrement the old count,
copy both members from `other`, increment the new count. -/
def assign (dst src : Ptr) (h : Heap) : Except Err (Ptr × Heap × List Event) :=
  match decrementReferenceCount dst h with
  | .error e => .error e
  | .ok (h₁, evs) =>
    let p : Ptr := { m_cpu := src.m_cpu, m_numReferences := src.m_numReferences }
    match incrementReferenceCount p h₁ with
    | .error e => .error e
    | .ok h₂ => .ok (p, h₂, evs)

/-- `get()`: returns `m_cpu`. -/
def Ptr.get (p : Ptr) : Option Addr := p.m_cpu

/-- `operator->()`: returns `m_cpu`. -/
def Ptr.opArrow (p : Ptr) : Option Addr := p.m_cpu

/-- `operator*()`: returns `*m_cpu`, i.e. the object at the host address. -/
def Ptr.opStar (p : Ptr) : Option Addr := p.m_cpu

/-- `use_count()`: `*m_numReferences` if the counter pointer is non-null,
otherwise `0`. -/
def Ptr.use_count (p : Ptr) (h : Heap) : Except Err Nat :=
  match p.m_numReferences with
  | none => .ok 0
  | some i =>
    match h.ctrMem i with
    | none => .error .danglingCounter
    | some n => .ok n

/-- `operator bool()`: `m_cpu != nullptr`. -/
def Ptr.opBool (p : Ptr) : Bool := p.m_cpu.isSome

/-- The implicit conversion `operator T*()`: returns `get()`. -/
def Ptr.opRawConv (p : Ptr) : Option Addr := p.m_cpu

/-- `make_managed<T>(args...)` for the Host strategy: `new T(args...)` on the
host, then wrap it with the owning constructor (`registerArguments` on the
Host strategy is a no-op). -/
def make_managed (h : Heap) : Ptr × Heap :=
  let (a, h₁) := h.allocHostObj
  ctorFromPtr (some a) h₁

/-- `static_pointer_cast<T>` (Host): `static_cast<T*>(other.get())`, then the
aliasing constructor. `castMap` is the address adjustment performed by the
C++ `static_cast` (`static_cast` of a null pointer is null, of a non-null
pointer non-null). -/
def static_pointer_cast (castMap : Addr → Addr) (other : Ptr) (h : Heap) :
    Except Err (Ptr × Heap) :=
  aliasingCtor other (other.get.map castMap) h

/-- `const_pointer_cast<T>` (Host): `const_cast<T*>(other.get())`, then the
aliasing constructor. -/
def const_pointer_cast (castMap : Addr → Addr) (other : Ptr) (h : Heap) :
    Except Err (Ptr × Heap) :=
  aliasingCtor other (other.get.map castMap) h

/-- `reinterpret_pointer_cast<T>` (Host): `reinterpret_cast<T*>(other.get())`,
then the aliasing constructor. -/
def reinterpret_pointer_cast (castMap : Addr → Addr) (other : Ptr) (h : Heap) :
    Except Err (Ptr × Heap) :=
  aliasingCtor other (other.get.map castMap) h

/-- `dynamic_pointer_cast<T>` (Host): if `dynamic_cast<T*>(other.get())` is
non-null, the aliasing constructor on the result; otherwise the default
constructor `managed_ptr<T>()`. `dynCast` is the runtime `dynamic_cast`:
`none` means the cast fails (and `dynamic_cast` of a null pointer is null). -/
def dynamic_pointer_cast (dynCast : Addr → Option Addr) (other : Ptr) (h : Heap) :
    Except Err (Ptr × Heap) :=
  match other.get.bind dynCast with
  | some hostPtr => aliasingCtor other (some hostPtr) h
  | none => .ok (Ptr.null, h)

/-- `operator==(lhs, rhs)`: `lhs.get() == rhs.get()`. -/
def ptrEq (lhs rhs : Ptr) : Bool := lhs.get == rhs.get

/-- `operator!=(lhs, rhs)`: `lhs.get() != rhs.get()`. -/
def ptrNe (lhs rhs : Ptr) : Bool := lhs.get != rhs.get

/-- `operator==(lhs, nullptr)`: `lhs.get() == nullptr`. -/
def ptrEqNull (lhs : Ptr) : Bool := lhs.get == none

/-- `operator!=(lhs, nullptr)`: `lhs.get() != nullptr`. -/
def ptrNeNull (lhs : Ptr) : Bool := lhs.get != none

end Host

namespace Managed

/-- The state of the `m_copier` / `m_deleter` function-pointer members of the
Managed strategy. These members have no default member initializer in the
source (`void (*m_copier)(void*);`), so on a pointer on which
`registerArguments` was never called they hold an indeterminate value;
calling (or even branching on) such a pointer is undefined behaviour. -/
inductive CallbackState
  /-- never assigned: an indeterminate function pointer -/
  | indeterminate
  /-- the lambda installed by `registerArguments` -/
  | installed
deriving DecidableEq, Repr

/-- `managed_ptr<T, ExecutionStrategy::Managed>`: host and device addresses,
the shared counter, the type-erased `m_copyArguments` payload (default
member initializer `nullptr`) and the two callback pointers (no default
member initializer). -/
structure Ptr where
  m_cpu : Option Addr := none
  m_gpu : Option Addr := none
  m_numReferences : Option CtrId := none
  m_copyArguments : Option Addr := none
  m_copier : CallbackState := .indeterminate
  m_deleter : CallbackState := .indeterminate
deriving DecidableEq, Repr

/-- The default constructor `managed_ptr()` and `managed_ptr(std::nullptr_t)`:
all members at their defaults (`m_copier`/`m_deleter` stay indeterminate). -/
def Ptr.null : Ptr := {}

/-- `m_copier(m_copyArguments)`. The installed lambda is
`std::tuple<Args...>(*(static_cast<std::tuple<Args...>*>(copyArguments)))`:
it dereferences the payload pointer and copy-constructs the tuple (firing
the copy semantics of the captured arguments), discarding the result.
Calling an indeterminate function pointer is undefined behaviour. -/
def invokeCopier (p : Ptr) (h : Heap) : Except Err (Heap × List Event) :=
  match p.m_copier with
  | .indeterminate => .error .indeterminateCallback
  | .installed =>
    match p.m_copyArguments with
    | none => .error .nullPayload
    | some a =>
      if h.payloadLive a then .ok (h, [.copierCall (some a)])
      else .error .danglingPayload

/-- `if (m_deleter) { m_deleter(m_copyArguments); }`. The installed lambda is
`delete static_cast<std::tuple<Args...>*>(copyArguments)` (deleting a null
payload is a no-op). Branching on an indeterminate function pointer is
undefined behaviour. -/
def invokeDeleter (p : Ptr) (h : Heap) : Except Err (Heap × List Event) :=
  match p.m_deleter with
  | .indeterminate => .error .indeterminateCallback
  | .installed =>
    match p.m_copyArguments with
    | none => .ok (h, [.releaseHook none])
    | some a => (h.freePayload a).map fun h' => (h', [.releaseHook (some a)])

/-- `incrementReferenceCount()` (Managed, `CHAI_HOST`): if the counter pointer
is non-null, `(*m_numReferences)++` and then `m_copier(m_copyArguments)`. -/
def incrementReferenceCount (p : Ptr) (h : Heap) : Except Err (Heap × List Event) :=
  match p.m_numReferences with
  | none => .ok (h, [])
  | some i =>
    match h.ctrMem i with
    | none => .error .danglingCounter
    | some n => invokeCopier p (h.setCtr i (some ((n + 1) % usizeMod)))

/-- `delete m_cpu` in the Managed release path (no-op on a null pointer). -/
def deleteCpu (p : Ptr) (h : Heap) : Except Err (Heap × List Event) :=
  match p.m_cpu with
  | none => .ok (h, [])
  | some a => (h.deleteHostObj a).map fun h' => (h', [.deleteHost a])

/-- `detail::destroy_on_device<<<1, 1>>>(m_gpu)`: the single-thread kernel
executes `if (devicePtr) { delete devicePtr; }`. -/
def destroy_on_device (g : Option Addr) (h : Heap) : Except Err (Heap × List Event) :=
  match g with
  | none => .ok (h, [])
  | some a => (h.deleteDevObj a).map fun h' => (h', [.deviceDelete a])

/-- `decrementReferenceCount()` (Managed, `CHAI_HOST`): if the counter pointer
is non-null, `(*m_numReferences)--`; if the result is `0`:
`delete m_numReferences`, then `if (m_deleter) m_deleter(m_copyArguments)`,
then `delete m_cpu`, then `detail::destroy_on_device<<<1, 1>>>(m_gpu)`
followed by `cudaDeviceSynchronize()`. -/
def decrementReferenceCount (p : Ptr) (h : Heap) : Except Err (Heap × List Event) :=
  match p.m_numReferences with
  | none => .ok (h, [])
  | some i =>
    match h.ctrMem i with
    | none => .error .danglingCounter
    | some n =>
      let n' := (n + (usizeMod - 1)) % usizeMod
      if n' = 0 then
        match invokeDeleter p (h.setCtr i none) with
        | .error e => .error e
        | .ok (h₂, e₁) =>
          match deleteCpu p h₂ with
          | .error e => .error e
          | .ok (h₃, e₂) =>
            match destroy_on_device p.m_gpu h₃ with
            | .error e => .error e
            | .ok (h₄, e₃) =>
              .ok (h₄, [.freeCounter i] ++ e₁ ++ e₂ ++ e₃ ++ [.deviceSync])
      else
        .ok (h.setCtr i (some n'), [])

/-- `managed_ptr(U* hostPtr, V* devicePtr)`: take ownership of both raw
pointers, allocate a fresh counter initialized to `1`. `m_copyArguments`
keeps its `nullptr` default and the callbacks stay indeterminate. -/
def ctorFromPtrs (hostPtr devicePtr : Option Addr) (h : Heap) : Ptr × Heap :=
  let (i, h') := h.allocCtr 1
  ({ m_cpu := hostPtr, m_gpu := devicePtr, m_numReferences := some i }, h')

/-- The copy constructor (`CHAI_HOST_DEVICE`): copy all six members; then
`incrementReferenceCount()`, but only under `#ifndef __CUDA_ARCH__`
(host context). -/
def copyCtor (ctx : ExecCtx) (other : Ptr) (h : Heap) :
    Except Err (Ptr × Heap × List Event) :=
  match ctx with
  | .device => .ok (other, h, [])
  | .host => (incrementReferenceCount other h).map fun (h', evs) => (other, h', evs)

/-- The converting constructor `managed_ptr(const managed_ptr<U, Managed>&)`:
identical to the copy constructor plus a type-level `static_assert`. -/
def convertingCtor (ctx : ExecCtx) (other : Ptr) (h : Heap) :
    Except Err (Ptr × Heap × List Event) :=
  match ctx with
  | .device => .ok (other, h, [])
  | .host => (incrementReferenceCount other h).map fun (h', evs) => (other, h', evs)

/-- The aliasing constructor
`managed_ptr(const managed_ptr<U, Managed>& other, T* hostPtr, T* devicePtr)`:
hold the two new addresses, share `other`'s counter, payload and callbacks;
increment only in host context. -/
def aliasingCtor (ctx : ExecCtx) (other : Ptr) (hostPtr devicePtr : Option Addr)
    (h : Heap) : Except Err (Ptr × Heap × List Event) :=
  let p : Ptr := { other with m_cpu := hostPtr, m_gpu := devicePtr }
  match ctx with
  | .device => .ok (p, h, [])
  | .host => (incrementReferenceCount p h).map fun (h', evs) => (p, h', evs)

/-- The destructor (`CHAI_HOST_DEVICE`): `decrementReferenceCount()` only
under `#ifndef __CUDA_ARCH__`. -/
def dtor (ctx : ExecCtx) (p : Ptr) (h : Heap) : Except Err (Heap × List Event) :=
  match ctx with
  | .device => .ok (h, [])
  | .host => decrementReferenceCount p h

/-- The copy-assignment operator (taken with `this != &other`; self-assignment
is a no-op) and the converting assignment operator: in host context decrement
the old count, copy all six members, increment the new count; in device
context only the member copies happen. -/
def assign (ctx : ExecCtx) (dst src : Ptr) (h : Heap) :
    Except Err (Ptr × Heap × List Event) :=
  match ctx with
  | .device => .ok (src, h, [])
  | .host =>
    match decrementReferenceCount dst h with
    | .error e => .error e
    | .ok (h₁, e₁) =>
      match incrementReferenceCount src h₁ with
      | .error e => .error e
      | .ok (h₂, e₂) => .ok (src, h₂, e₁ ++ e₂)

/-- `get()` (`CHAI_HOST_DEVICE`): `m_cpu` under `#ifndef __CUDA_ARCH__`,
`m_gpu` otherwise. -/
def Ptr.get (p : Ptr) (ctx : ExecCtx) : Option Addr :=
  match ctx with
  | .host => p.m_cpu
  | .device => p.m_gpu

/-- `operator->()` (`CHAI_HOST_DEVICE`): `m_cpu` on the host, `m_gpu` on the
device. -/
def Ptr.opArrow (p : Ptr) (ctx : ExecCtx) : Option Addr :=
  match ctx with
  | .host => p.m_cpu
  | .device => p.m_gpu

/-- `operator*()` (`CHAI_HOST_DEVICE`): the object at `m_cpu` on the host, at
`m_gpu` on the device. -/
def Ptr.opStar (p : Ptr) (ctx : ExecCtx) : Option Addr :=
  match ctx with
  | .host => p.m_cpu
  | .device => p.m_gpu

/-- `use_count()` (`CHAI_HOST`): `*m_numReferences` if non-null, else `0`. -/
def Ptr.use_count (p : Ptr) (h : Heap) : Except Err Nat :=
  match p.m_numReferences with
  | none => .ok 0
  | some i =>
    match h.ctrMem i with
    | none => .error .danglingCounter
    | some n => .ok n

/-- `operator bool()` (`CHAI_HOST_DEVICE`): `m_cpu != nullptr` on the host,
`m_gpu != nullptr` on the device. -/
def Ptr.opBool (p : Ptr) (ctx : ExecCtx) : Bool :=
  match ctx with
  | .host => p.m_cpu.isSome
  | .device => p.m_gpu.isSome

/-- The implicit conversion `operator T*()` (`CHAI_HOST_DEVICE`): under
`#ifndef __CUDA_ARCH__` it first executes `m_copier(m_copyArguments)` —
unconditionally, with no null or installed check — and then returns `get()`;
in device context it just returns `get()`. -/
def opRawConv (ctx : ExecCtx) (p : Ptr) (h : Heap) :
    Except Err (Option Addr × Heap × List Event) :=
  match ctx with
  | .device => .ok (p.get .device, h, [])
  | .host => (invokeCopier p h).map fun (h', evs) => (p.get .host, h', evs)

/-- `registerArguments(Args&&... args)` (`CHAI_HOST`):
`m_copyArguments = (void*) new std::tuple<Args...>(args...)` and install the
copier and deleter lambdas. -/
def registerArguments (p : Ptr) (h : Heap) : Ptr × Heap :=
  let (a, h') := h.allocPayload
  ({ p with m_copyArguments := some a,
            m_copier := .installed,
            m_deleter := .installed }, h')

/-- `make_managed<T>(ExecutionStrategy::Managed&&, args...)`:
`new T(args...)` on the host, `detail::make_on_device<T>(args...)` on the
device, wrap both with the owning constructor, then
`result.registerArguments(args...)`. -/
def make_managed (h : Heap) : Ptr × Heap :=
  let (a, h₁) := h.allocHostObj
  let (g, h₂) := h₁.allocDevObj
  let (p, h₃) := ctorFromPtrs (some a) (some g) h₂
  registerArguments p h₃

/-- `operator==(lhs, rhs)` (`CHAI_HOST_DEVICE`): `lhs.get() == rhs.get()` in
the calling context. -/
def ptrEq (ctx : ExecCtx) (lhs rhs : Ptr) : Bool := lhs.get ctx == rhs.get ctx

/-- `operator==(lhs, nullptr)` (`CHAI_HOST_DEVICE`): `lhs.get() == nullptr`. -/
def ptrEqNull (ctx : ExecCtx) (lhs : Ptr) : Bool := lhs.get ctx == none

/-- The condition of the `static_assert` in `dynamic_pointer_cast` for the
Managed strategy: the source literally writes `static_assert(true, "CUDA
does not support dynamic_cast")`. -/
def dynamic_pointer_cast_assert_cond : Bool := true

end Managed

namespace Device

/-- The condition of the `static_assert` in `dynamic_pointer_cast` for the
Device strategy: likewise literally `true` in the source. -/
def dynamic_pointer_cast_assert_cond : Bool := true

end Device

/-- A `static_assert(cond, msg)` is a compile-time error exactly when `cond`
evaluates to `false`. -/
def staticAssertFails (cond : Bool) : Bool := !cond

namespace Host

/-- Run `n` successive copy constructions from the pointer `p`. -/
def copyN : Nat → Ptr → Heap → Except Err Heap
  | 0, _, h => .ok h
  | n + 1, p, h =>
    match copyCtor p h with
    | .error e => .error e
    | .ok (_, h₁) => copyN n p h₁

/-- The claimed invariant of claim C8: a non-null stored pointer implies a
non-null reference counter. -/
def Ptr.inv (p : Ptr) : Prop := p.m_cpu.isSome = true → p.m_numReferences.isSome = true

end Host

namespace Managed

/-- Host- and device-side lifecycle operations on one pointer lineage. All
copies of a lineage hold identical member values, so one `Ptr` value
represents every copy. -/
inductive LOp
  /-- host-context copy construction of a new owning copy -/
  | copyHost
  /-- host-context destruction of one owning copy -/
  | destroyHost
  /-- device-context copy construction (e.g. capture by a kernel) -/
  | copyDevice
  /-- device-context destructor run -/
  | destroyDevice
deriving DecidableEq, Repr

/-- Execute one lifecycle operation. -/
def execLOp (p : Ptr) (op : LOp) (h : Heap) : Except Err (Heap × List Event) :=
  match op with
  | .copyHost => (copyCtor .host p h).map fun r => r.2
  | .destroyHost => dtor .host p h
  | .copyDevice => (copyCtor .device p h).map fun r => r.2
  | .destroyDevice => dtor .device p h

/-- Execute a sequence of lifecycle operations, accumulating events. -/
def execTrace (p : Ptr) (t : List LOp) (h : Heap) : Except Err (Heap × List Event) :=
  match t with
  | [] => .ok (h, [])
  | op :: rest =>
    match execLOp p op h with
    | .error e => .error e
    | .ok (h₁, e₁) =>
      match execTrace p rest h₁ with
      | .error e => .error e
      | .ok (h₂, e₂) => .ok (h₂, e₁ ++ e₂)

/-- The number of live host-side owning copies after one operation. -/
def liveAfter (live : Nat) (op : LOp) : Nat :=
  match op with
  | .copyHost => live + 1
  | .destroyHost => live - 1
  | .copyDevice => live
  | .destroyDevice => live

/-- A trace is valid from `live` owning copies if every operation happens
while at least one copy is live (copies are made from a live copy, and each
destruction destroys a live copy exactly once) and the number of
simultaneously live copies stays below `2 ^ 64` (each is a distinct live
C++ object). -/
def validFrom (live : Nat) : List LOp → Bool
  | [] => true
  | op :: rest =>
    decide (0 < live) && decide (liveAfter live op < usizeMod) &&
      validFrom (liveAfter live op) rest

/-- The number of live owning copies after a whole trace. -/
def finalLive (live : Nat) (t : List LOp) : Nat := t.foldl liveAfter live

/-- The event sequence of the release path of `decrementReferenceCount`
(Managed) when the count reaches `0`: free the counter, run the release
hook, delete the host object, device-side delete, synchronize. -/
def releaseBlock (i : CtrId) (pa : Option Addr) (a g : Addr) : List Event :=
  [.freeCounter i, .releaseHook pa, .deleteHost a, .deviceDelete g, .deviceSync]

/-- The member values shared by every copy of a lineage created by
`make_managed`: host and device objects, a counter cell, a registered
payload and installed callbacks. -/
def linPtr (i : CtrId) (pa a g : Addr) : Ptr :=
  { m_cpu := some a, m_gpu := some g, m_numReferences := some i,
    m_copyArguments := some pa, m_copier := .installed, m_deleter := .installed }

end Managed

/-- A completely empty heap, used for concrete evaluations. -/
def heap0 : Heap :=
  { ctrMem := fun _ => none, ctrNext := 0,
    hostLive := fun _ => false, hostNext := 0,
    devLive := fun _ => false, devNext := 0,
    payloadLive := fun _ => false, payloadNext := 0 }

/-- Claim C3 (evaluating the code): the conditions of the `static_assert`s
guarding `dynamic_pointer_cast` for the Managed and the Device strategies
are literally `true` in the source, so the assertions never fail and no
compile-time error is produced when `dynamic_pointer_cast` is invoked on
those strategies — contradicting the claim (and the asserts' own message)
that the cast is rejected at compile time. -/
theorem dynamic_pointer_cast_assert_never_fires :
    staticAssertFails Managed.dynamic_pointer_cast_assert_cond = false ∧
    staticAssertFails Device.dynamic_pointer_cast_assert_cond = false :=
  ⟨rfl, rfl⟩

/-- Claim C5: for every Managed-strategy pointer, `get`, `operator->` and
`operator*` resolve to the stored host address (`m_cpu`) when evaluated in
host context and to the stored device address (`m_gpu`) when the same
expression is evaluated in device context; in particular a pointer built by
`make_managed` resolves to the freshly allocated host object on the host
and to the freshly allocated device object on the device. -/
theorem managed_deref_context_dependent :
    (∀ p : Managed.Ptr,
      p.get .host = p.m_cpu ∧ p.get .device = p.m_gpu ∧
      p.opArrow .host = p.m_cpu ∧ p.opArrow .device = p.m_gpu ∧
      p.opStar .host = p.m_cpu ∧ p.opStar .device = p.m_gpu) ∧
    (∀ h : Heap,
      ((Managed.make_managed h).1).get .host = some h.hostNext ∧
      ((Managed.make_managed h).1).get .device = some h.devNext) := by
  refine ⟨fun p => ⟨rfl, rfl, rfl, rfl, rfl, rfl⟩, fun h => ⟨rfl, rfl⟩⟩

/-- Claim C6: copying or assigning a Managed-strategy pointer in device
context returns the copied member values but leaves the heap — in
particular the shared reference counter — completely unchanged and performs
no observable effect, for the copy constructor, the converting constructor,
the aliasing constructor and both assignment operators; a host-context copy
of the same pointer increments the counter. -/
theorem managed_device_copy_never_touches_counter :
    (∀ (p : Managed.Ptr) (h : Heap), Managed.copyCtor .device p h = .ok (p, h, [])) ∧
    (∀ (p : Managed.Ptr) (h : Heap), Managed.convertingCtor .device p h = .ok (p, h, [])) ∧
    (∀ (other : Managed.Ptr) (hp dp : Option Addr) (h : Heap),
      Managed.aliasingCtor .device other hp dp h =
        .ok ({ other with m_cpu := hp, m_gpu := dp }, h, [])) ∧
    (∀ (dst src : Managed.Ptr) (h : Heap), Managed.assign .device dst src h = .ok (src, h, [])) ∧
    (∀ (p : Managed.Ptr) (h : Heap) (i : CtrId) (n : Nat) (pa : Addr),
      p.m_numReferences = some i → h.ctrMem i = some n → n + 1 < usizeMod →
      p.m_copier = .installed → p.m_copyArguments = some pa → h.payloadLive pa = true →
      Managed.copyCtor .host p h =
        .ok (p, h.setCtr i (some (n + 1)), [.copierCall (some pa)]) ∧
      Managed.Ptr.use_count p (h.setCtr i (some (n + 1))) = .ok (n + 1)) := by
  refine ⟨fun p h => rfl, fun p h => rfl, fun o hp dp h => rfl, fun d s h => rfl, ?_⟩
  intro p h i n pa hi hn hlt hcop hpa hlive
  have hmod : (n + 1) % usizeMod = n + 1 := Nat.mod_eq_of_lt hlt
  constructor
  · simp only [Managed.copyCtor, Managed.incrementReferenceCount, hi, hn, hmod,
      Managed.invokeCopier, hcop, hpa]
    have hl : (h.setCtr i (some (n + 1))).payloadLive pa = true := hlive
    simp [hl, Except.map]
  · simp [Managed.Ptr.use_count, hi, Heap.setCtr]

/-- Claim C10: in host context the implicit conversion `operator T*` of a
Managed-strategy pointer invokes the stored copy callback on the stored
payload before returning the host address, and does so unconditionally:
on a pointer with an installed callback it fires the callback exactly once
and returns `m_cpu`; on a default- or nullptr-constructed pointer (and on one
built from raw pointers) on which `registerArguments` was never called, it
still calls the — indeterminate — callback, which is undefined behaviour. -/
theorem managed_raw_conversion_always_invokes_copier :
    (∀ (p : Managed.Ptr) (h : Heap) (pa : Addr),
      p.m_copier = .installed → p.m_copyArguments = some pa → h.payloadLive pa = true →
      Managed.opRawConv .host p h = .ok (p.m_cpu, h, [.copierCall (some pa)])) ∧
    (∀ h : Heap,
      Managed.opRawConv .host Managed.Ptr.null h = .error .indeterminateCallback) ∧
    (∀ (hostPtr devicePtr : Option Addr) (h : Heap),
      Managed.opRawConv .host ((Managed.ctorFromPtrs hostPtr devicePtr h).1)
          ((Managed.ctorFromPtrs hostPtr devicePtr h).2) =
        .error .indeterminateCallback) := by
  refine ⟨?_, fun h => rfl, fun hp dp h => rfl⟩
  intro p h pa hcop hpa hlive
  simp [Managed.opRawConv, Managed.invokeCopier, hcop, hpa, hlive, Managed.Ptr.get,
    Except.map]

/-- Claim C9: `operator==` on two pointers is true exactly when their stored
addresses as returned by `get()` are equal (for Host pointers, and for
Managed pointers in either execution context); two pointers built by two
separate `make_managed` calls compare unequal (the second host allocation
is fresh); and a pointer compares equal to `nullptr` exactly when its
stored address is null. -/
theorem identity_comparison :
    (∀ lhs rhs : Host.Ptr, Host.ptrEq lhs rhs = true ↔ lhs.get = rhs.get) ∧
    (∀ lhs rhs : Host.Ptr, Host.ptrNe lhs rhs = true ↔ lhs.get ≠ rhs.get) ∧
    (∀ (ctx : ExecCtx) (lhs rhs : Managed.Ptr),
      Managed.ptrEq ctx lhs rhs = true ↔ lhs.get ctx = rhs.get ctx) ∧
    (∀ h : Heap,
      Host.ptrEq (Host.make_managed h).1 (Host.make_managed (Host.make_managed h).2).1
        = false) ∧
    (∀ p : Host.Ptr, Host.ptrEqNull p = true ↔ p.get = none) ∧
    (∀ (ctx : ExecCtx) (p : Managed.Ptr),
      Managed.ptrEqNull ctx p = true ↔ p.get ctx = none) := by
  refine ⟨?_, ?_, ?_, ?_, ?_, ?_⟩
  · intro lhs rhs; simp [Host.ptrEq]
  · intro lhs rhs; simp [Host.ptrNe]
  · intro ctx lhs rhs; simp [Managed.ptrEq]
  · intro h
    simp [Host.make_managed, Host.ctorFromPtr, Heap.allocHostObj, Heap.allocCtr,
      Heap.setCtr, Host.ptrEq, Host.Ptr.get]
  · intro p; simp [Host.ptrEqNull, Host.Ptr.get]
  · intro ctx p; simp [Managed.ptrEqNull]

/-- `usizeMod` as a numeral. -/
theorem usizeMod_eq : usizeMod = 18446744073709551616 := by norm_num [usizeMod]

/-- `std::size_t` decrement below the modulus: `(n + (2^64 - 1)) % 2^64 = n - 1`
for `1 ≤ n < 2^64`. -/
theorem usize_pred (n : Nat) (h1 : 1 ≤ n) (h2 : n < usizeMod) :
    (n + (usizeMod - 1)) % usizeMod = n - 1 := by
  rw [usizeMod_eq] at *
  omega

/-- The members of the pointer produced by the Host `make_managed` and the
value of its freshly allocated counter cell. -/
theorem host_make_managed_facts (h₀ : Heap) :
    (Host.make_managed h₀).1 =
      { m_cpu := some h₀.hostNext, m_numReferences := some h₀.ctrNext } ∧
    ((Host.make_managed h₀).2).ctrMem h₀.ctrNext = some 1 := by
  constructor
  · rfl
  · simp [Host.make_managed, Host.ctorFromPtr, Heap.allocCtr, Heap.allocHostObj,
      Heap.setCtr]

/-- One Host copy construction bumps the counter cell by one. -/
theorem host_copyCtor_step (p : Host.Ptr) (h : Heap) (i : CtrId) (n : Nat)
    (hi : p.m_numReferences = some i) (hn : h.ctrMem i = some n)
    (hlt : n + 1 < usizeMod) :
    Host.copyCtor p h = .ok (p, h.setCtr i (some (n + 1))) := by
  have hmod : (n + 1) % usizeMod = n + 1 := Nat.mod_eq_of_lt hlt
  simp [Host.copyCtor, Host.incrementReferenceCount, hi, hn, hmod, Except.map]

/-- `copyN` bumps the counter cell by the number of copies. -/
theorem host_copyN_spec (i : CtrId) (p : Host.Ptr) (hi : p.m_numReferences = some i) :
    ∀ (k m : Nat) (h : Heap), h.ctrMem i = some m → m + k < usizeMod →
      ∃ h', Host.copyN k p h = .ok h' ∧ h'.ctrMem i = some (m + k) := by
  intro k
  induction k with
  | zero => intro m h hm _; exact ⟨h, rfl, by simpa using hm⟩
  | succ k ih =>
    intro m h hm hlt
    have hstep := host_copyCtor_step p h i m hi hm (by omega)
    have hcell : (h.setCtr i (some (m + 1))).ctrMem i = some (m + 1) := by
      simp [Heap.setCtr]
    obtain ⟨h', hrun, hc⟩ := ih (m + 1) (h.setCtr i (some (m + 1))) hcell (by omega)
    have harith : m + 1 + k = m + (k + 1) := by omega
    rw [harith] at hc
    exact ⟨h', by simp [Host.copyN, hstep, hrun], hc⟩

/-- Claim C1: a pointer returned by the Host `make_managed` has
`use_count() == 1`; after `N` further copy constructions the count is
`1 + N`; a single copy construction takes the count from `n` to `n + 1`;
assigning a lineage member into a fresh (null) pointer takes the lineage
count from `n` to `n + 1`; destroying a copy while others remain takes the
count from `n` to `n - 1`; and assigning a null pointer over a copy
(assignment-away) likewise takes its old lineage's count from `n` to
`n - 1`. -/
theorem host_reference_count_lifecycle :
    (∀ h₀ : Heap,
      Host.Ptr.use_count (Host.make_managed h₀).1 (Host.make_managed h₀).2 = .ok 1) ∧
    (∀ (h₀ : Heap) (N : Nat), N + 1 < usizeMod →
      ∃ h', Host.copyN N (Host.make_managed h₀).1 (Host.make_managed h₀).2 = .ok h' ∧
        Host.Ptr.use_count (Host.make_managed h₀).1 h' = .ok (1 + N)) ∧
    (∀ (p : Host.Ptr) (h : Heap) (i : CtrId) (n : Nat),
      p.m_numReferences = some i → h.ctrMem i = some n → n + 1 < usizeMod →
      Host.copyCtor p h = .ok (p, h.setCtr i (some (n + 1))) ∧
      Host.Ptr.use_count p (h.setCtr i (some (n + 1))) = .ok (n + 1)) ∧
    (∀ (src : Host.Ptr) (h : Heap) (i : CtrId) (n : Nat),
      src.m_numReferences = some i → h.ctrMem i = some n → n + 1 < usizeMod →
      Host.assign Host.Ptr.null src h =
        .ok ({ m_cpu := src.m_cpu, m_numReferences := some i },
             h.setCtr i (some (n + 1)), []) ∧
      Host.Ptr.use_count src (h.setCtr i (some (n + 1))) = .ok (n + 1)) ∧
    (∀ (p : Host.Ptr) (h : Heap) (i : CtrId) (n : Nat),
      p.m_numReferences = some i → h.ctrMem i = some n → 2 ≤ n → n < usizeMod →
      Host.dtor p h = .ok (h.setCtr i (some (n - 1)), []) ∧
      Host.Ptr.use_count p (h.setCtr i (some (n - 1))) = .ok (n - 1)) ∧
    (∀ (dst : Host.Ptr) (h : Heap) (i : CtrId) (n : Nat),
      dst.m_numReferences = some i → h.ctrMem i = some n → 2 ≤ n → n < usizeMod →
      Host.assign dst Host.Ptr.null h =
        .ok (Host.Ptr.null, h.setCtr i (some (n - 1)), []) ∧
      Host.Ptr.use_count dst (h.setCtr i (some (n - 1))) = .ok (n - 1)) := by
  refine ⟨?_, ?_, ?_, ?_, ?_, ?_⟩
  · intro h₀
    obtain ⟨hp, hc⟩ := host_make_managed_facts h₀
    simp [Host.Ptr.use_count, hp, hc]
  · intro h₀ N hN
    obtain ⟨hp, hc⟩ := host_make_managed_facts h₀
    obtain ⟨h', hrun, hcell⟩ :=
      host_copyN_spec h₀.ctrNext (Host.make_managed h₀).1 (by rw [hp]) N 1
        (Host.make_managed h₀).2 hc (by omega)
    exact ⟨h', hrun, by simp [Host.Ptr.use_count, hp, hcell, Nat.add_comm]⟩
  · intro p h i n hi hn hlt
    exact ⟨host_copyCtor_step p h i n hi hn hlt,
      by simp [Host.Ptr.use_count, hi, Heap.setCtr]⟩
  · intro src h i n hi hn hlt
    have hmod : (n + 1) % usizeMod = n + 1 := Nat.mod_eq_of_lt hlt
    constructor
    · simp [Host.assign, Host.decrementReferenceCount, Host.Ptr.null,
        Host.incrementReferenceCount, hi, hn, hmod]
    · simp [Host.Ptr.use_count, hi, Heap.setCtr]
  · intro p h i n hi hn h2 hlt
    have hpred : (n + (usizeMod - 1)) % usizeMod = n - 1 := usize_pred n (by omega) hlt
    have hne : ¬(n - 1 = 0) := by omega
    constructor
    · simp [Host.dtor, Host.decrementReferenceCount, hi, hn, hpred, hne]
    · simp [Host.Ptr.use_count, hi, Heap.setCtr]
  · intro dst h i n hi hn h2 hlt
    have hpred : (n + (usizeMod - 1)) % usizeMod = n - 1 := usize_pred n (by omega) hlt
    have hne : ¬(n - 1 = 0) := by omega
    constructor
    · simp [Host.assign, Host.decrementReferenceCount, Host.Ptr.null,
        Host.incrementReferenceCount, hi, hn, hpred, hne]
    · simp [Host.Ptr.use_count, hi, Heap.setCtr]

/-- Witness for claim C1's theorem: concrete instances of every conjunct,
starting from `make_managed` on the empty heap (counter cell `0`). -/
theorem host_reference_count_lifecycle_witness :
    (Host.Ptr.use_count (Host.make_managed heap0).1 (Host.make_managed heap0).2 = .ok 1) ∧
    (2 + 1 < usizeMod ∧
      ∃ h', Host.copyN 2 (Host.make_managed heap0).1 (Host.make_managed heap0).2 = .ok h' ∧
        Host.Ptr.use_count (Host.make_managed heap0).1 h' = .ok 3) ∧
    ((Host.make_managed heap0).1.m_numReferences = some 0 ∧
      ((Host.make_managed heap0).2).ctrMem 0 = some 1 ∧ 1 + 1 < usizeMod ∧
      Host.copyCtor (Host.make_managed heap0).1 (Host.make_managed heap0).2 =
        .ok ((Host.make_managed heap0).1,
             ((Host.make_managed heap0).2).setCtr 0 (some 2)) ∧
      Host.Ptr.use_count (Host.make_managed heap0).1
        (((Host.make_managed heap0).2).setCtr 0 (some 2)) = .ok 2) ∧
    (Host.assign Host.Ptr.null (Host.make_managed heap0).1 (Host.make_managed heap0).2 =
        .ok ({ m_cpu := some 0, m_numReferences := some 0 },
             ((Host.make_managed heap0).2).setCtr 0 (some 2), []) ∧
      Host.Ptr.use_count (Host.make_managed heap0).1
        (((Host.make_managed heap0).2).setCtr 0 (some 2)) = .ok 2) ∧
    ((2 ≤ 2 ∧ 2 < usizeMod) ∧
      Host.dtor (Host.make_managed heap0).1 (((Host.make_managed heap0).2).setCtr 0 (some 2)) =
        .ok ((((Host.make_managed heap0).2).setCtr 0 (some 2)).setCtr 0 (some 1), []) ∧
      Host.Ptr.use_count (Host.make_managed heap0).1
        ((((Host.make_managed heap0).2).setCtr 0 (some 2)).setCtr 0 (some 1)) = .ok 1) ∧
    (Host.assign (Host.make_managed heap0).1 Host.Ptr.null
        (((Host.make_managed heap0).2).setCtr 0 (some 2)) =
        .ok (Host.Ptr.null,
             (((Host.make_managed heap0).2).setCtr 0 (some 2)).setCtr 0 (some 1), []) ∧
      Host.Ptr.use_count (Host.make_managed heap0).1
        ((((Host.make_managed heap0).2).setCtr 0 (some 2)).setCtr 0 (some 1)) = .ok 1) := by
  have hbig : (3 : Nat) < usizeMod := by rw [usizeMod_eq]; omega
  refine ⟨host_reference_count_lifecycle.1 heap0,
    ⟨hbig, host_reference_count_lifecycle.2.1 heap0 2 hbig⟩,
    ⟨rfl, rfl, by rw [usizeMod_eq]; omega,
      host_reference_count_lifecycle.2.2.1 (Host.make_managed heap0).1
        (Host.make_managed heap0).2 0 1 rfl rfl (by rw [usizeMod_eq]; omega)⟩,
    host_reference_count_lifecycle.2.2.2.1 (Host.make_managed heap0).1
      (Host.make_managed heap0).2 0 1 rfl rfl (by rw [usizeMod_eq]; omega),
    ⟨⟨le_refl 2, by rw [usizeMod_eq]; omega⟩,
      host_reference_count_lifecycle.2.2.2.2.1 (Host.make_managed heap0).1
        (((Host.make_managed heap0).2).setCtr 0 (some 2)) 0 2 rfl rfl (le_refl 2)
        (by rw [usizeMod_eq]; omega)⟩,
    host_reference_count_lifecycle.2.2.2.2.2 (Host.make_managed heap0).1
      (((Host.make_managed heap0).2).setCtr 0 (some 2)) 0 2 rfl rfl (le_refl 2)
      (by rw [usizeMod_eq]; omega)⟩

/-- Claim C4: Host-strategy `dynamic_pointer_cast`. When the runtime
`dynamic_cast` fails — the source address is null, or `dynCast` returns
`none` on it — the result is the empty pointer (null address,
`use_count() == 0`) and the heap, in particular the original counter cell,
is untouched. When the cast succeeds, the result holds the cast address and
shares the original counter cell, whose value becomes `n + 1` as observed
through both pointers; a further copy made through the cast result is
observed through the original pointer as well (`n + 2`). -/
theorem host_dynamic_pointer_cast_spec
    (dynCast : Addr → Option Addr) (p : Host.Ptr) (h : Heap) (i : CtrId) (n : Nat)
    (hi : p.m_numReferences = some i) (hn : h.ctrMem i = some n)
    (hlt : n + 2 < usizeMod) :
    (p.m_cpu = none →
      Host.dynamic_pointer_cast dynCast p h = .ok (Host.Ptr.null, h) ∧
      Host.Ptr.use_count Host.Ptr.null h = .ok 0 ∧ h.ctrMem i = some n) ∧
    (∀ a, p.m_cpu = some a → dynCast a = none →
      Host.dynamic_pointer_cast dynCast p h = .ok (Host.Ptr.null, h) ∧
      Host.Ptr.use_count Host.Ptr.null h = .ok 0 ∧ h.ctrMem i = some n) ∧
    (∀ a b, p.m_cpu = some a → dynCast a = some b →
      Host.dynamic_pointer_cast dynCast p h =
        .ok ({ m_cpu := some b, m_numReferences := some i },
             h.setCtr i (some (n + 1))) ∧
      Host.Ptr.use_count p (h.setCtr i (some (n + 1))) = .ok (n + 1) ∧
      Host.Ptr.use_count { m_cpu := some b, m_numReferences := some i }
        (h.setCtr i (some (n + 1))) = .ok (n + 1) ∧
      Host.copyCtor { m_cpu := some b, m_numReferences := some i }
          (h.setCtr i (some (n + 1))) =
        .ok ({ m_cpu := some b, m_numReferences := some i },
             (h.setCtr i (some (n + 1))).setCtr i (some (n + 2))) ∧
      Host.Ptr.use_count p ((h.setCtr i (some (n + 1))).setCtr i (some (n + 2))) =
        .ok (n + 2)) := by
  refine ⟨?_, ?_, ?_⟩
  · intro hc
    refine ⟨?_, rfl, hn⟩
    simp [Host.dynamic_pointer_cast, Host.Ptr.get, hc]
  · intro a hc hdc
    refine ⟨?_, rfl, hn⟩
    simp [Host.dynamic_pointer_cast, Host.Ptr.get, hc, hdc]
  · intro a b hc hdc
    have hmod : (n + 1) % usizeMod = n + 1 := Nat.mod_eq_of_lt (by omega)
    refine ⟨?_, ?_, ?_, ?_, ?_⟩
    · simp [Host.dynamic_pointer_cast, Host.Ptr.get, hc, hdc, Host.aliasingCtor,
        Host.incrementReferenceCount, hi, hn, hmod, Except.map]
    · simp [Host.Ptr.use_count, hi, Heap.setCtr]
    · simp [Host.Ptr.use_count, Heap.setCtr]
    · have hcell : (h.setCtr i (some (n + 1))).ctrMem i = some (n + 1) := by
        simp [Heap.setCtr]
      exact host_copyCtor_step _ _ i (n + 1) rfl hcell (by omega)
    · simp [Host.Ptr.use_count, hi, Heap.setCtr]

/-- Witness for claim C4's theorem: a pointer holding address `5` with
counter cell `0` at value `1`, a runtime cast that succeeds on address `5`
(yielding `9`) and fails elsewhere. -/
theorem host_dynamic_pointer_cast_spec_witness :
    ((Host.ctorFromPtr (some 5) heap0).1.m_numReferences = some 0 ∧
     (Host.ctorFromPtr (some 5) heap0).2.ctrMem 0 = some 1 ∧ 1 + 2 < usizeMod) ∧
    (∀ a b, (Host.ctorFromPtr (some 5) heap0).1.m_cpu = some a →
      (fun x => if x = 5 then some 9 else none) a = some b →
      Host.dynamic_pointer_cast (fun x => if x = 5 then some 9 else none)
          (Host.ctorFromPtr (some 5) heap0).1 (Host.ctorFromPtr (some 5) heap0).2 =
        .ok ({ m_cpu := some b, m_numReferences := some 0 },
             ((Host.ctorFromPtr (some 5) heap0).2).setCtr 0 (some 2)) ∧
      Host.Ptr.use_count (Host.ctorFromPtr (some 5) heap0).1
        (((Host.ctorFromPtr (some 5) heap0).2).setCtr 0 (some 2)) = .ok 2 ∧
      Host.Ptr.use_count { m_cpu := some b, m_numReferences := some 0 }
        (((Host.ctorFromPtr (some 5) heap0).2).setCtr 0 (some 2)) = .ok 2 ∧
      Host.copyCtor { m_cpu := some b, m_numReferences := some 0 }
          (((Host.ctorFromPtr (some 5) heap0).2).setCtr 0 (some 2)) =
        .ok ({ m_cpu := some b, m_numReferences := some 0 },
             ((((Host.ctorFromPtr (some 5) heap0).2).setCtr 0 (some 2))).setCtr 0 (some 3)) ∧
      Host.Ptr.use_count (Host.ctorFromPtr (some 5) heap0).1
        (((((Host.ctorFromPtr (some 5) heap0).2).setCtr 0 (some 2))).setCtr 0 (some 3)) =
        .ok 3) := by
  refine ⟨⟨rfl, rfl, by rw [usizeMod_eq]; omega⟩, ?_⟩
  exact (host_dynamic_pointer_cast_spec (fun x => if x = 5 then some 9 else none)
    (Host.ctorFromPtr (some 5) heap0).1 (Host.ctorFromPtr (some 5) heap0).2 0 1
    rfl rfl (by rw [usizeMod_eq]; omega)).2.2

/-- Claim C8 (counterexample): the public Host-strategy aliasing constructor
applied to a default-constructed pointer (null counter) and the non-null
raw address `7` succeeds and yields a pointer whose stored address is
non-null while its reference counter is null — refuting, for the aliasing
constructor, the claim that every constructed pointer with a non-null
stored pointer has a non-null counter. -/
theorem host_invariant_counterexample :
    Host.aliasingCtor Host.Ptr.null (some 7) heap0 =
      .ok ({ m_cpu := some 7, m_numReferences := none }, heap0) ∧
    ({ m_cpu := some 7, m_numReferences := none } : Host.Ptr).m_cpu.isSome = true ∧
    ({ m_cpu := some 7, m_numReferences := none } : Host.Ptr).m_numReferences = none ∧
    Host.Ptr.use_count { m_cpu := some 7, m_numReferences := none } heap0 = .ok 0 :=
  ⟨rfl, rfl, rfl, rfl⟩

/-- Claim C8 (amended): default- and nullptr-constructed pointers have a
null counter and `use_count() == 0`; the owning constructor and the factory
establish the invariant "non-null stored pointer implies non-null counter";
copy construction, assignment and all four casts preserve it; and the
aliasing constructor preserves it when the source pointer's counter is
non-null (the counterexample shows it does not when the source's counter is
null and the new raw address is non-null). -/
theorem host_invariant_amended :
    (Host.Ptr.null.m_numReferences = none ∧
      ∀ h : Heap, Host.Ptr.use_count Host.Ptr.null h = .ok 0) ∧
    (∀ (hp : Option Addr) (h : Heap), ((Host.ctorFromPtr hp h).1).inv) ∧
    (∀ h : Heap, ((Host.make_managed h).1).inv) ∧
    (∀ (p q : Host.Ptr) (h h' : Heap),
      p.inv → Host.copyCtor p h = .ok (q, h') → q.inv) ∧
    (∀ (dst src q : Host.Ptr) (h : Heap) (r : Heap × List Event),
      src.inv → Host.assign dst src h = .ok (q, r) → q.inv) ∧
    (∀ (other q : Host.Ptr) (hp : Option Addr) (h h' : Heap),
      other.m_numReferences.isSome = true →
      Host.aliasingCtor other hp h = .ok (q, h') → q.inv) ∧
    (∀ (castMap : Addr → Addr) (other q : Host.Ptr) (h h' : Heap),
      other.inv → Host.static_pointer_cast castMap other h = .ok (q, h') → q.inv) ∧
    (∀ (castMap : Addr → Addr) (other q : Host.Ptr) (h h' : Heap),
      other.inv → Host.const_pointer_cast castMap other h = .ok (q, h') → q.inv) ∧
    (∀ (castMap : Addr → Addr) (other q : Host.Ptr) (h h' : Heap),
      other.inv → Host.reinterpret_pointer_cast castMap other h = .ok (q, h') → q.inv) ∧
    (∀ (dynCast : Addr → Option Addr) (other q : Host.Ptr) (h h' : Heap),
      other.inv → Host.dynamic_pointer_cast dynCast other h = .ok (q, h') → q.inv) := by
  have haux : ∀ (other : Host.Ptr) (hp : Option Addr) (h : Heap) (q : Host.Ptr)
      (h' : Heap), Host.aliasingCtor other hp h = .ok (q, h') →
      q = { m_cpu := hp, m_numReferences := other.m_numReferences } := by
    intro other hp h q h' hrun
    unfold Host.aliasingCtor at hrun
    cases hinc : Host.incrementReferenceCount
        { m_cpu := hp, m_numReferences := other.m_numReferences } h with
    | error e => simp [hinc, Except.map] at hrun
    | ok h₂ => simp [hinc, Except.map] at hrun; exact hrun.1.symm
  refine ⟨⟨rfl, fun h => rfl⟩, ?_, ?_, ?_, ?_, ?_, ?_, ?_, ?_, ?_⟩
  · intro hp h
    intro _; rfl
  · intro h
    intro _; rfl
  · intro p q h h' hinv hrun
    unfold Host.copyCtor at hrun
    cases hinc : Host.incrementReferenceCount p h with
    | error e => rw [hinc] at hrun; simp [Except.map] at hrun
    | ok h₂ =>
      rw [hinc] at hrun; simp [Except.map] at hrun
      rw [← hrun.1]; exact hinv
  · intro dst src q h r hinv hrun
    unfold Host.assign at hrun
    cases hdec : Host.decrementReferenceCount dst h with
    | error e => rw [hdec] at hrun; simp at hrun
    | ok s =>
      rw [hdec] at hrun
      cases hinc : Host.incrementReferenceCount
          { m_cpu := src.m_cpu, m_numReferences := src.m_numReferences } s.1 with
      | error e => simp [hinc] at hrun
      | ok h₂ =>
        simp [hinc] at hrun
        rw [← hrun.1]; exact hinv
  · intro other q hp h h' hsome hrun
    rw [haux other hp h q h' hrun]
    intro _
    exact hsome
  · intro castMap other q h h' hinv hrun
    rw [haux other _ h q h' hrun]
    intro hcpu
    apply hinv
    simpa [Host.Ptr.get, Option.isSome_map] using hcpu
  · intro castMap other q h h' hinv hrun
    rw [haux other _ h q h' hrun]
    intro hcpu
    apply hinv
    simpa [Host.Ptr.get, Option.isSome_map] using hcpu
  · intro castMap other q h h' hinv hrun
    rw [haux other _ h q h' hrun]
    intro hcpu
    apply hinv
    simpa [Host.Ptr.get, Option.isSome_map] using hcpu
  · intro dynCast other q h h' hinv hrun
    unfold Host.dynamic_pointer_cast at hrun
    cases hbind : other.get.bind dynCast with
    | none =>
      rw [hbind] at hrun
      simp at hrun
      rw [← hrun.1]
      intro hcpu; cases hcpu
    | some b =>
      rw [hbind] at hrun
      rw [haux other _ h q h' hrun]
      intro _
      apply hinv
      rcases hob : other.m_cpu with _ | a
      · rw [Host.Ptr.get] at hbind; rw [hob] at hbind; simp at hbind
      · simp [hob]

/-- Witness for claim C8's amended theorem: the invariant-preservation
conjuncts applied to the pointer built by `ctorFromPtr` on address `5`. -/
theorem host_invariant_amended_witness :
    ((Host.ctorFromPtr (some 5) heap0).1).inv ∧
    ((Host.ctorFromPtr (some 5) heap0).1.inv ∧
      Host.copyCtor (Host.ctorFromPtr (some 5) heap0).1 (Host.ctorFromPtr (some 5) heap0).2 =
        .ok ((Host.ctorFromPtr (some 5) heap0).1,
             ((Host.ctorFromPtr (some 5) heap0).2).setCtr 0 (some 2)) ∧
      ((Host.ctorFromPtr (some 5) heap0).1).inv) ∧
    ((Host.ctorFromPtr (some 5) heap0).1.m_numReferences.isSome = true ∧
      Host.aliasingCtor (Host.ctorFromPtr (some 5) heap0).1 (some 9)
          (Host.ctorFromPtr (some 5) heap0).2 =
        .ok ({ m_cpu := some 9, m_numReferences := some 0 },
             ((Host.ctorFromPtr (some 5) heap0).2).setCtr 0 (some 2)) ∧
      ({ m_cpu := some 9, m_numReferences := some 0 } : Host.Ptr).inv) := by
  have hctor : ((Host.ctorFromPtr (some 5) heap0).1).inv :=
    host_invariant_amended.2.1 (some 5) heap0
  have hcopy : Host.copyCtor (Host.ctorFromPtr (some 5) heap0).1
      (Host.ctorFromPtr (some 5) heap0).2 =
      .ok ((Host.ctorFromPtr (some 5) heap0).1,
           ((Host.ctorFromPtr (some 5) heap0).2).setCtr 0 (some 2)) :=
    host_copyCtor_step _ _ 0 1 rfl rfl (by rw [usizeMod_eq]; omega)
  have halias : Host.aliasingCtor (Host.ctorFromPtr (some 5) heap0).1 (some 9)
      (Host.ctorFromPtr (some 5) heap0).2 =
      .ok ({ m_cpu := some 9, m_numReferences := some 0 },
           ((Host.ctorFromPtr (some 5) heap0).2).setCtr 0 (some 2)) := by
    have hmod : (1 + 1) % usizeMod = 1 + 1 :=
      Nat.mod_eq_of_lt (by rw [usizeMod_eq]; omega)
    simp [Host.aliasingCtor, Host.incrementReferenceCount, hmod, Except.map,
      Host.ctorFromPtr, Heap.allocCtr, Heap.setCtr, heap0]
  refine ⟨hctor,
    ⟨hctor, hcopy, host_invariant_amended.2.2.2.1 _ _ _ _ hctor hcopy⟩,
    ⟨rfl, halias,
      host_invariant_amended.2.2.2.2.2.1 (Host.ctorFromPtr (some 5) heap0).1
        { m_cpu := some 9, m_numReferences := some 0 } (some 9)
        (Host.ctorFromPtr (some 5) heap0).2
        (((Host.ctorFromPtr (some 5) heap0).2).setCtr 0 (some 2)) rfl halias⟩⟩

/-- Claim C7: `registerArguments` installs the copy callback and allocates
the payload; afterwards, every host-side reference-count increment — via
`incrementReferenceCount` itself, the copy constructor, the converting
constructor, the aliasing constructor or assignment-in — invokes the copy
callback exactly once per increment. -/
theorem managed_increment_replays_copy_hook
    (q : Managed.Ptr) (h : Heap) (i : CtrId) (n : Nat) (pa : Addr)
    (hcop : q.m_copier = .installed) (hpa : q.m_copyArguments = some pa)
    (hi : q.m_numReferences = some i) (hn : h.ctrMem i = some n)
    (hlt : n + 1 < usizeMod) (hlive : h.payloadLive pa = true) :
    (∀ (p₀ : Managed.Ptr) (h₀ : Heap),
      ((Managed.registerArguments p₀ h₀).1).m_copier = .installed ∧
      ((Managed.registerArguments p₀ h₀).1).m_copyArguments = some h₀.payloadNext ∧
      ((Managed.registerArguments p₀ h₀).2).payloadLive h₀.payloadNext = true) ∧
    Managed.incrementReferenceCount q h =
      .ok (h.setCtr i (some (n + 1)), [.copierCall (some pa)]) ∧
    (∃ r, Managed.copyCtor .host q h = .ok r ∧
      r.2.2.countP Event.isCopierCall = 1) ∧
    (∃ r, Managed.convertingCtor .host q h = .ok r ∧
      r.2.2.countP Event.isCopierCall = 1) ∧
    (∀ hp dp : Option Addr, ∃ r, Managed.aliasingCtor .host q hp dp h = .ok r ∧
      r.2.2.countP Event.isCopierCall = 1) ∧
    (∃ r, Managed.assign .host Managed.Ptr.null q h = .ok r ∧
      r.2.2.countP Event.isCopierCall = 1) := by
  have hmod : (n + 1) % usizeMod = n + 1 := Nat.mod_eq_of_lt hlt
  have hinc : Managed.incrementReferenceCount q h =
      .ok (h.setCtr i (some (n + 1)), [.copierCall (some pa)]) := by
    have hl : (h.setCtr i (some (n + 1))).payloadLive pa = true := hlive
    simp [Managed.incrementReferenceCount, hi, hn, hmod, Managed.invokeCopier,
      hcop, hpa, hl]
  refine ⟨?_, hinc, ?_, ?_, ?_, ?_⟩
  · intro p₀ h₀
    refine ⟨rfl, rfl, ?_⟩
    simp [Managed.registerArguments, Heap.allocPayload]
  · exact ⟨(q, h.setCtr i (some (n + 1)), [.copierCall (some pa)]),
      by simp [Managed.copyCtor, hinc, Except.map], by simp [Event.isCopierCall]⟩
  · exact ⟨(q, h.setCtr i (some (n + 1)), [.copierCall (some pa)]),
      by simp [Managed.convertingCtor, hinc, Except.map], by simp [Event.isCopierCall]⟩
  · intro hp dp
    have hinc' : Managed.incrementReferenceCount
        { q with m_cpu := hp, m_gpu := dp } h =
        .ok (h.setCtr i (some (n + 1)), [.copierCall (some pa)]) := by
      have hl : (h.setCtr i (some (n + 1))).payloadLive pa = true := hlive
      simp [Managed.incrementReferenceCount, hi, hn, hmod, Managed.invokeCopier,
        hcop, hpa, hl]
    exact ⟨({ q with m_cpu := hp, m_gpu := dp },
        h.setCtr i (some (n + 1)), [.copierCall (some pa)]),
      by simp [Managed.aliasingCtor, hinc', Except.map], by simp [Event.isCopierCall]⟩
  · refine ⟨(q, h.setCtr i (some (n + 1)), [.copierCall (some pa)]), ?_,
      by simp [Event.isCopierCall]⟩
    simp [Managed.assign, Managed.decrementReferenceCount, Managed.Ptr.null, hinc]

/-- Witness for claim C7's theorem: the pointer produced by `make_managed`
on the empty heap (counter cell `0` at value `1`, payload `0` live). -/
theorem managed_increment_replays_copy_hook_witness :
    ((Managed.make_managed heap0).1.m_copier = .installed ∧
     (Managed.make_managed heap0).1.m_copyArguments = some 0 ∧
     (Managed.make_managed heap0).1.m_numReferences = some 0 ∧
     (Managed.make_managed heap0).2.ctrMem 0 = some 1 ∧ 1 + 1 < usizeMod ∧
     (Managed.make_managed heap0).2.payloadLive 0 = true) ∧
    (∃ r, Managed.copyCtor .host (Managed.make_managed heap0).1
        (Managed.make_managed heap0).2 = .ok r ∧
      r.2.2.countP Event.isCopierCall = 1) := by
  refine ⟨⟨rfl, rfl, rfl, rfl, by rw [usizeMod_eq]; omega, rfl⟩, ?_⟩
  exact (managed_increment_replays_copy_hook (Managed.make_managed heap0).1
    (Managed.make_managed heap0).2 0 1 0 rfl rfl rfl rfl
    (by rw [usizeMod_eq]; omega) rfl).2.2.1

/-- Witness for claim C6's theorem: a host-context copy of the pointer
produced by `make_managed` on the empty heap increments the counter cell
from `1` to `2`. -/
theorem managed_device_copy_never_touches_counter_witness :
    ((Managed.make_managed heap0).1.m_numReferences = some 0 ∧
     (Managed.make_managed heap0).2.ctrMem 0 = some 1 ∧ 1 + 1 < usizeMod ∧
     (Managed.make_managed heap0).1.m_copier = .installed ∧
     (Managed.make_managed heap0).1.m_copyArguments = some 0 ∧
     (Managed.make_managed heap0).2.payloadLive 0 = true) ∧
    (Managed.copyCtor .host (Managed.make_managed heap0).1 (Managed.make_managed heap0).2 =
      .ok ((Managed.make_managed heap0).1,
           ((Managed.make_managed heap0).2).setCtr 0 (some 2), [.copierCall (some 0)]) ∧
     Managed.Ptr.use_count (Managed.make_managed heap0).1
       (((Managed.make_managed heap0).2).setCtr 0 (some 2)) = .ok 2) := by
  refine ⟨⟨rfl, rfl, by rw [usizeMod_eq]; omega, rfl, rfl, rfl⟩, ?_⟩
  exact managed_device_copy_never_touches_counter.2.2.2.2
    (Managed.make_managed heap0).1 (Managed.make_managed heap0).2 0 1 0
    rfl rfl (by rw [usizeMod_eq]; omega) rfl rfl rfl

/-- Witness for claim C10's theorem: the raw-pointer conversion of the
`make_managed` pointer fires the callback once and returns its host
address; on the default-constructed pointer the callback is indeterminate
and the call is undefined behaviour. -/
theorem managed_raw_conversion_always_invokes_copier_witness :
    ((Managed.make_managed heap0).1.m_copier = .installed ∧
     (Managed.make_managed heap0).1.m_copyArguments = some 0 ∧
     (Managed.make_managed heap0).2.payloadLive 0 = true) ∧
    Managed.opRawConv .host (Managed.make_managed heap0).1 (Managed.make_managed heap0).2 =
      .ok ((Managed.make_managed heap0).1.m_cpu, (Managed.make_managed heap0).2,
           [.copierCall (some 0)]) ∧
    Managed.opRawConv .host Managed.Ptr.null heap0 = .error .indeterminateCallback :=
  ⟨⟨rfl, rfl, rfl⟩,
   managed_raw_conversion_always_invokes_copier.1 (Managed.make_managed heap0).1
     (Managed.make_managed heap0).2 0 rfl rfl rfl,
   managed_raw_conversion_always_invokes_copier.2.1 heap0⟩

/-- A host-context copy on a registered lineage bumps the counter and fires
one copy-hook call. -/
theorem linPtr_copyHost_step (i : CtrId) (pa a g : Addr) (n : Nat) (h : Heap)
    (hn : h.ctrMem i = some n) (hlt : n + 1 < usizeMod)
    (hlive : h.payloadLive pa = true) :
    Managed.execLOp (Managed.linPtr i pa a g) .copyHost h =
      .ok (h.setCtr i (some (n + 1)), [.copierCall (some pa)]) := by
  have hmod : (n + 1) % usizeMod = n + 1 := Nat.mod_eq_of_lt hlt
  have hl : (h.setCtr i (some (n + 1))).payloadLive pa = true := hlive
  simp [Managed.execLOp, Managed.copyCtor, Managed.incrementReferenceCount,
    Managed.linPtr, hn, hmod, Managed.invokeCopier, hl, Except.map]

/-- A host-context destruction with more than one live copy only lowers the
counter. -/
theorem linPtr_destroyHost_step (i : CtrId) (pa a g : Addr) (n : Nat) (h : Heap)
    (hn : h.ctrMem i = some n) (h2 : 2 ≤ n) (hlt : n < usizeMod) :
    Managed.execLOp (Managed.linPtr i pa a g) .destroyHost h =
      .ok (h.setCtr i (some (n - 1)), []) := by
  have hpred : (n + (usizeMod - 1)) % usizeMod = n - 1 := usize_pred n (by omega) hlt
  have hne : ¬(n - 1 = 0) := by omega
  simp [Managed.execLOp, Managed.dtor, Managed.decrementReferenceCount,
    Managed.linPtr, hn, hpred, hne]

/-- Destroying the last live copy runs the full release path and emits the
release block. -/
theorem linPtr_destroyLast_step (i : CtrId) (pa a g : Addr) (h : Heap)
    (hn : h.ctrMem i = some 1) (hpl : h.payloadLive pa = true)
    (hhl : h.hostLive a = true) (hdl : h.devLive g = true) :
    ∃ h', Managed.execLOp (Managed.linPtr i pa a g) .destroyHost h =
      .ok (h', Managed.releaseBlock i (some pa) a g) := by
  have hpred : (1 + (usizeMod - 1)) % usizeMod = 0 := by
    have := usize_pred 1 (le_refl 1) (by rw [usizeMod_eq]; omega)
    simpa using this
  apply Exists.intro
  simp [Managed.execLOp, Managed.dtor, Managed.decrementReferenceCount,
    Managed.linPtr, hn, hpred, Managed.invokeDeleter, Heap.freePayload, hpl,
    Managed.deleteCpu, Heap.deleteHostObj, hhl, Managed.destroy_on_device,
    Heap.deleteDevObj, hdl, Managed.releaseBlock, Except.map, Heap.setCtr]
  rfl

/-- Device-context copies are free of heap effects. -/
theorem linPtr_copyDevice_step (p : Managed.Ptr) (h : Heap) :
    Managed.execLOp p .copyDevice h = .ok (h, []) := rfl

/-- Device-context destructor runs are free of heap effects. -/
theorem linPtr_destroyDevice_step (p : Managed.Ptr) (h : Heap) :
    Managed.execLOp p .destroyDevice h = .ok (h, []) := rfl

/-- Unfolding a valid trace's head. -/
theorem validFrom_cons (n : Nat) (op : Managed.LOp) (rest : List Managed.LOp)
    (h : Managed.validFrom n (op :: rest) = true) :
    0 < n ∧ Managed.liveAfter n op < usizeMod ∧
      Managed.validFrom (Managed.liveAfter n op) rest = true := by
  simp only [Managed.validFrom, Bool.and_eq_true, decide_eq_true_eq] at h
  exact ⟨h.1.1, h.1.2, h.2⟩

/-- Once no copy is live, the only valid continuation is the empty trace. -/
theorem validFrom_zero_nil (t : List Managed.LOp)
    (h : Managed.validFrom 0 t = true) : t = [] := by
  cases t with
  | nil => rfl
  | cons op rest =>
    simp only [Managed.validFrom, Bool.and_eq_true, decide_eq_true_eq] at h
    exact absurd h.1.1 (by omega)

/-- A list of copy-hook events contains no deletion events. -/
theorem copier_events_no_deletes (l : List Event)
    (hall : l.all Event.isCopierCall = true) :
    l.countP Event.isDeleteHost = 0 ∧ l.countP Event.isDeviceDelete = 0 := by
  constructor <;>
  · rw [List.countP_eq_zero]
    intro e he
    have h1 := List.all_eq_true.mp hall e he
    cases e <;> simp_all [Event.isCopierCall, Event.isDeleteHost, Event.isDeviceDelete]

/-- Executing any valid trace on a lineage whose shared state is a counter
cell at the live count, a live payload and live host/device objects never
goes wrong; if the trace ends with live copies the counter equals the live
count and only copy-hook events were emitted, and if it ends with zero live
copies the event log is copy-hook events followed by exactly one release
block. -/
theorem lineage_exec (i : CtrId) (pa a g : Addr) :
    ∀ (t : List Managed.LOp) (n : Nat) (h : Heap),
      0 < n → n < usizeMod → Managed.validFrom n t = true →
      h.ctrMem i = some n → h.payloadLive pa = true →
      h.hostLive a = true → h.devLive g = true →
      ∃ h' evs,
        Managed.execTrace (Managed.linPtr i pa a g) t h = .ok (h', evs) ∧
        ((Managed.finalLive n t = 0 ∧
          ∃ pre, evs = pre ++ Managed.releaseBlock i (some pa) a g ∧
            pre.all Event.isCopierCall = true) ∨
         (0 < Managed.finalLive n t ∧ Managed.finalLive n t < usizeMod ∧
          evs.all Event.isCopierCall = true ∧
          h'.ctrMem i = some (Managed.finalLive n t) ∧
          h'.payloadLive pa = true ∧ h'.hostLive a = true ∧ h'.devLive g = true)) := by
  intro t
  induction t with
  | nil =>
    intro n h hn0 hnlt hv hc hp ha hg
    exact ⟨h, [], rfl, Or.inr ⟨hn0, hnlt, rfl, hc, hp, ha, hg⟩⟩
  | cons op rest ih =>
    intro n h hn0 hnlt hv hc hp ha hg
    obtain ⟨-, hla, hvrest⟩ := validFrom_cons n op rest hv
    cases op with
    | copyHost =>
      have hlt1 : n + 1 < usizeMod := hla
      have hstep := linPtr_copyHost_step i pa a g n h hc hlt1 hp
      obtain ⟨h', evs', hrun, hdisj⟩ := ih (n + 1) (h.setCtr i (some (n + 1)))
        (by omega) hlt1 hvrest (by simp [Heap.setCtr]) hp ha hg
      refine ⟨h', Event.copierCall (some pa) :: evs', ?_, ?_⟩
      · simp [Managed.execTrace, hstep, hrun]
      · rcases hdisj with ⟨hfin, pre, hpre, hall⟩ | ⟨h1, h2, h3, h4, h5, h6, h7⟩
        · refine Or.inl ⟨hfin, Event.copierCall (some pa) :: pre, ?_, ?_⟩
          · simp [hpre]
          · simp [hall, Event.isCopierCall]
        · exact Or.inr ⟨h1, h2, by simp [h3, Event.isCopierCall], h4, h5, h6, h7⟩
    | destroyHost =>
      by_cases hn1 : n = 1
      · subst hn1
        obtain ⟨h', hstep⟩ := linPtr_destroyLast_step i pa a g h hc hp ha hg
        have hrest : rest = [] := validFrom_zero_nil rest hvrest
        subst hrest
        refine ⟨h', Managed.releaseBlock i (some pa) a g, ?_, ?_⟩
        · simp [Managed.execTrace, hstep]
        · exact Or.inl ⟨rfl, [], by simp, rfl⟩
      · have h2 : 2 ≤ n := by omega
        have hstep := linPtr_destroyHost_step i pa a g n h hc h2 hnlt
        obtain ⟨h', evs', hrun, hdisj⟩ := ih (n - 1) (h.setCtr i (some (n - 1)))
          (by omega) (by omega) hvrest (by simp [Heap.setCtr]) hp ha hg
        refine ⟨h', evs', ?_, hdisj⟩
        simp [Managed.execTrace, hstep, hrun]
    | copyDevice =>
      obtain ⟨h', evs', hrun, hdisj⟩ := ih n h hn0 hnlt hvrest hc hp ha hg
      refine ⟨h', evs', ?_, hdisj⟩
      simp [Managed.execTrace, linPtr_copyDevice_step, hrun]
    | destroyDevice =>
      obtain ⟨h', evs', hrun, hdisj⟩ := ih n h hn0 hnlt hvrest hc hp ha hg
      refine ⟨h', evs', ?_, hdisj⟩
      simp [Managed.execTrace, linPtr_destroyDevice_step, hrun]

/-- Claim C2: starting from `make_managed` (Managed), every valid sequence of
host/device copies and destructions executes without any double free or
other fault; if it destroys every owning copy (the count reaches `0`) the
event log is copy-hook events followed by exactly one release block — the
release hook, then the host deletion, then the device deletion, then the
blocking synchronize, in that order — containing exactly one host deletion
and exactly one device deletion; and as long as copies remain live, no host
or device deletion has fired. -/
theorem managed_release_exactly_once (h₀ : Heap) (t : List Managed.LOp)
    (hv : Managed.validFrom 1 t = true) :
    ∃ h' evs,
      Managed.execTrace (Managed.make_managed h₀).1 t (Managed.make_managed h₀).2 =
        .ok (h', evs) ∧
      (Managed.finalLive 1 t = 0 →
        evs.countP Event.isDeleteHost = 1 ∧
        evs.countP Event.isDeviceDelete = 1 ∧
        ∃ pre, evs = pre ++ Managed.releaseBlock h₀.ctrNext (some h₀.payloadNext)
            h₀.hostNext h₀.devNext ∧ pre.all Event.isCopierCall = true) ∧
      (0 < Managed.finalLive 1 t →
        evs.countP Event.isDeleteHost = 0 ∧ evs.countP Event.isDeviceDelete = 0) := by
  have hptr : (Managed.make_managed h₀).1 =
      Managed.linPtr h₀.ctrNext h₀.payloadNext h₀.hostNext h₀.devNext := rfl
  have hc : (Managed.make_managed h₀).2.ctrMem h₀.ctrNext = some 1 := by
    simp [Managed.make_managed, Managed.ctorFromPtrs, Managed.registerArguments,
      Heap.allocHostObj, Heap.allocDevObj, Heap.allocPayload, Heap.allocCtr,
      Heap.setCtr]
  have hp : (Managed.make_managed h₀).2.payloadLive h₀.payloadNext = true := by
    simp [Managed.make_managed, Managed.ctorFromPtrs, Managed.registerArguments,
      Heap.allocHostObj, Heap.allocDevObj, Heap.allocPayload, Heap.allocCtr,
      Heap.setCtr]
  have ha : (Managed.make_managed h₀).2.hostLive h₀.hostNext = true := by
    simp [Managed.make_managed, Managed.ctorFromPtrs, Managed.registerArguments,
      Heap.allocHostObj, Heap.allocDevObj, Heap.allocPayload, Heap.allocCtr,
      Heap.setCtr]
  have hg : (Managed.make_managed h₀).2.devLive h₀.devNext = true := by
    simp [Managed.make_managed, Managed.ctorFromPtrs, Managed.registerArguments,
      Heap.allocHostObj, Heap.allocDevObj, Heap.allocPayload, Heap.allocCtr,
      Heap.setCtr]
  obtain ⟨h', evs, hrun, hdisj⟩ :=
    lineage_exec h₀.ctrNext h₀.payloadNext h₀.hostNext h₀.devNext t 1
      (Managed.make_managed h₀).2 one_pos (by rw [usizeMod_eq]; omega) hv hc hp ha hg
  rw [hptr]
  refine ⟨h', evs, hrun, ?_, ?_⟩
  · intro hfin
    rcases hdisj with ⟨-, pre, hpre, hall⟩ | ⟨hpos, -⟩
    · obtain ⟨hdh, hdd⟩ := copier_events_no_deletes pre hall
      subst hpre
      rw [List.countP_append, List.countP_append, hdh, hdd]
      refine ⟨?_, ?_, pre, rfl, hall⟩ <;>
        simp [Managed.releaseBlock, List.countP_cons, Event.isDeleteHost,
          Event.isDeviceDelete]
    · omega
  · intro hpos
    rcases hdisj with ⟨hfin, -⟩ | ⟨-, -, hall, -⟩
    · omega
    · exact copier_events_no_deletes evs hall

/-- Witness for claim C2's theorem: the trace "copy on the host, copy on the
device, destroy both host copies" on a lineage made on the empty heap. -/
theorem managed_release_exactly_once_witness :
    Managed.validFrom 1 [.copyHost, .copyDevice, .destroyHost, .destroyHost] = true ∧
    (∃ h' evs,
      Managed.execTrace (Managed.make_managed heap0).1
          [.copyHost, .copyDevice, .destroyHost, .destroyHost]
          (Managed.make_managed heap0).2 = .ok (h', evs) ∧
      (Managed.finalLive 1 [.copyHost, .copyDevice, .destroyHost, .destroyHost] = 0 →
        evs.countP Event.isDeleteHost = 1 ∧
        evs.countP Event.isDeviceDelete = 1 ∧
        ∃ pre, evs = pre ++ Managed.releaseBlock heap0.ctrNext (some heap0.payloadNext)
            heap0.hostNext heap0.devNext ∧ pre.all Event.isCopierCall = true) ∧
      (0 < Managed.finalLive 1 [.copyHost, .copyDevice, .destroyHost, .destroyHost] →
        evs.countP Event.isDeleteHost = 0 ∧ evs.countP Event.isDeviceDelete = 0)) :=
  ⟨by decide, managed_release_exactly_once heap0
    [.copyHost, .copyDevice, .destroyHost, .destroyHost] (by decide)⟩

end chai
